import Mathlib

/-!
Verification of the TorchToLinalg linear-algebra lowering
(lib/Conversion/TorchToLinalg/Linear.cpp).

The rewrite patterns of that file are embedded shallowly: each
`matchAndRewrite` becomes a pure Lean function from a description of the
operator instance (operand ranks and shapes, element types, quantization
zero-points, constant parameters) to either a structured failure (the
`notifyMatchFailure` / `failure()` outcomes) or a description of the
replacement graph the pattern emits (which contraction or convolution
primitive, the runtime assertions inserted, the accumulator shape, the
reshape/permutation bookkeeping).

Runtime dimension extents (`tensor.DimOp` values) are modelled as `Nat`;
static shapes (as seen by `makeShapeTorchCompatible`) are `List Int` with
`-1` standing for `Torch::kUnknownSize` (a dynamic extent).
-/

namespace TorchToLinalg

/-- Torch-level element types, as compared by `ValueTensorType::getDtype()`. -/
inductive TorchDType where
  | float16
  | float32
  | float64
  | int8
  | uint8
  | int32
  | uint32
  | int64
  deriving DecidableEq, Repr

/-- Mirrors `torch_to_linalg::isUnsignedTorchType` on the dtypes modelled here. -/
def TorchDType.isUnsigned : TorchDType → Bool
  | .uint8 => true
  | .uint32 => true
  | _ => false

/-- Builtin (linalg-level) element types: the lowering only ever inspects
whether a type is a float or an integer of a given width. -/
inductive BuiltinType where
  | float (width : Nat)
  | int (width : Nat)
  deriving DecidableEq, Repr

/-- The linalg/tensor primitives this file can emit as the core of a
replacement graph. -/
inductive Primitive where
  | dot
  | vecmat
  | matvec
  | matmul
  | matmulUnsignedCast
  | quantizedMatmul
  | batchMatmul
  | quantizedBatchMatmul
  | genericContraction
  | conv1d
  | conv2d
  | conv3d
  | qconv2d
  | qconv3d
  | depthwise1d
  | depthwise2d
  | qdepthwise2d
  | groupedConv2d
  | qgroupedConv2d
  deriving DecidableEq, Repr

/-- A `cf.assert` inserted into the lowered program: it traps at run time
iff `cond` is `false`. -/
structure Assertion where
  cond : Bool
  msg : String
  deriving DecidableEq, Repr

/-- Outcome of one `matchAndRewrite` call: a replacement description, or a
failure.  `failure (some msg)` is `rewriter.notifyMatchFailure(op, msg)`;
`failure none` is a bare `return failure()` (no reason attached).  In either
failure case the original operator is left unmodified. -/
inductive LowerResult (α : Type) where
  | success (out : α)
  | failure (reason : Option String)
  deriving DecidableEq, Repr

/-- True iff the conversion did not produce a replacement graph. -/
def LowerResult.isFailure {α : Type} : LowerResult α → Bool
  | .success _ => false
  | .failure _ => true

/-- The emitted replacement, if any. -/
def LowerResult.emitted? {α : Type} : LowerResult α → Option α
  | .success out => some out
  | .failure _ => none

/-- `Torch::kUnknownSize`: the static-shape marker for a dynamic extent. -/
def kUnknownSize : Int := -1

/-- Runtime extent of dimension `i` (`getDimOp` / `tensor.DimOp`). -/
def dimOf (shape : List Nat) (i : Nat) : Nat := shape.getD i 0

/-- Modelled from the spec: `checkDimEqualHelper` is defined outside this
file (TorchToLinalg/Utils); per §4.1 it emits a runtime equality assertion
with a descriptive message rather than failing the conversion. -/
def checkDimEqual (a b : Nat) : Assertion :=
  ⟨decide (a = b), "mismatched dimensions for contraction"⟩

/-! ## signShift (Linear.cpp lines 36-55)

For uint8 types the code shifts the operand and its zero-point down by
`2^(numBits-1)` so the quantization can be expressed with signed types.
The operand elements are stored as `numBits`-wide bit patterns (here: `Nat`
values `< 2^numBits`); the zero-point is an `i32` value (here: `Int`).
`arith.addi` wraps, so the element add is modelled modulo `2^numBits` and
the zero-point add modulo `2^32`. -/

/-- Reinterpret a `w`-bit pattern as a signed integer (two's complement). -/
def toSigned (w : Nat) (bits : Nat) : Int :=
  if bits < 2 ^ (w - 1) then (bits : Int) else (bits : Int) - 2 ^ w

/-- `arith.addi` at width 32 on signed values. -/
def addI32 (a b : Int) : Int :=
  toSigned 32 (((a + b) % (2 ^ 32 : Int)).toNat)

/-- Result of `signShift`: the rewritten operand elements and zero-point. -/
structure SignShiftOut where
  arg : List Nat
  zp : Int
  deriving DecidableEq, Repr

/-- Shallow embedding of `signShift`.  When `isUnsignedType` is false the
function returns immediately.  Otherwise `minSI = -(1 << (numBits - 1))` is
added to the zero-point (an i32 `arith.addi`) and, via an elementwise
`linalg.generic`, to every element of the operand (a `numBits`-wide
`arith.addi`, whose constant operand is the `numBits`-wide bit pattern of
`minSI`). -/
def signShift (isUnsignedType : Bool) (numBits : Nat) (arg : List Nat)
    (zp : Int) : SignShiftOut :=
  if isUnsignedType = false then ⟨arg, zp⟩
  else
    let minSI : Int := -(2 ^ (numBits - 1))
    let zpShifted := addI32 zp minSI
    let minSIBits : Nat := (minSI % (2 ^ numBits : Int)).toNat
    ⟨arg.map (fun v => (v + minSIBits) % 2 ^ numBits), zpShifted⟩

/-! ## ConvertAtenMmOp (Linear.cpp lines 78-213) -/

/-- One `aten.mm` operator instance as the pattern sees it.
`linalgCompatible` records the outcome of `verifyLinalgCompatibleTypes`
(defined outside this file); `strictSymbolicShapes` records
`isAssumingStrictSymbolicShapes(rewriter)`. -/
structure MmInput where
  lhsShape : List Nat
  rhsShape : List Nat
  lhsDtype : TorchDType
  rhsDtype : TorchDType
  lhsZp : Option Int
  rhsZp : Option Int
  linalgCompatible : Bool
  strictSymbolicShapes : Bool
  deriving DecidableEq, Repr

/-- Replacement graph description for `aten.mm`. -/
structure MmEmitted where
  assertions : List Assertion
  primitive : Primitive
  accShape : List Nat
  deriving DecidableEq, Repr

/-- Shallow embedding of `ConvertAtenMmOp::matchAndRewrite`. -/
def convertAtenMmOp (inp : MmInput) : LowerResult MmEmitted :=
  if inp.linalgCompatible = false then .failure none
  else if ¬ (inp.lhsShape.length = 2 ∧ inp.rhsShape.length = 2) then
    .failure (some "expected both operands to aten.mm to be rank 2")
  else if inp.lhsZp.isSome ≠ inp.rhsZp.isSome then
    .failure (some "unsupported: aten.mm with mixed quantization")
  else if inp.lhsDtype ≠ inp.rhsDtype ∧ inp.lhsZp.isNone then
    .failure (some "unsupported: aten.mm with different input element types")
  else
    let assertions :=
      if inp.strictSymbolicShapes then []
      else
        [⟨decide (dimOf inp.lhsShape 1 = dimOf inp.rhsShape 0),
          "mismatching contracting dimension for torch.aten.mm"⟩]
    let primitive :=
      if inp.lhsZp.isSome then Primitive.quantizedMatmul
      else if inp.lhsDtype.isUnsigned then Primitive.matmulUnsignedCast
      else Primitive.matmul
    .success
      { assertions := assertions
        primitive := primitive
        accShape := [dimOf inp.lhsShape 0, dimOf inp.rhsShape 1] }

/-! ## ConvertAtenMatmulOp (Linear.cpp lines 247-674) -/

/-- One `aten.matmul` operator instance.  `resultStatic` is the static
shape of the converted result type, as `makeShapeTorchCompatible` sees it
(`-1` = dynamic). -/
structure MatmulInput where
  lhsShape : List Nat
  rhsShape : List Nat
  resultStatic : List Int
  lhsDtype : TorchDType
  rhsDtype : TorchDType
  lhsZp : Option Int
  rhsZp : Option Int
  linalgCompatible : Bool
  deriving DecidableEq, Repr

/-- Replacement graph description for `aten.matmul`.
`reassoc` is the `ReassociationIndices` used for a collapse/expand pair
(present on the batch-collapsing path and on the quantized 1-D promotion
path); `expandedTo` is the static shape the collapsed batched-matmul result
is expanded back to. -/
structure MatmulEmitted where
  assertions : List Assertion
  primitive : Primitive
  accShape : List Nat
  reassoc : Option (List (List Nat))
  expandedTo : Option (List Int)
  deriving DecidableEq, Repr

/-- The broadcasted batch dimensions of the batched-matmul case (Linear.cpp
lines 469-483): `broadcastedBatchShape[batchRank - i]` is, for
`i = 1 .. batchRank`, the max of the two operand extents at that aligned
position when both operands have a batch dimension there
(`i <= minRank - 2`), and the longer operand's extent otherwise. -/
def broadcastedBatchShape (lhsShape rhsShape : List Nat) : List Nat :=
  let lhsRank := lhsShape.length
  let rhsRank := rhsShape.length
  let maxRank := max lhsRank rhsRank
  let minRank := min lhsRank rhsRank
  let batchRank := maxRank - 2
  let maxRankShape := if lhsRank > rhsRank then lhsShape else rhsShape
  (List.range batchRank).map (fun j =>
    let i := batchRank - j
    if i ≤ minRank - 2 then
      max (dimOf lhsShape (lhsRank - 2 - i)) (dimOf rhsShape (rhsRank - 2 - i))
    else
      dimOf maxRankShape (maxRank - 2 - i))

/-- Modelled from the spec: `torch_to_linalg::broadcastToGivenShape` is
defined outside this file; per §4.3 each operand is materialized into the
broadcasted shape by a shape-broadcast transformation that follows
NumPy-style right-aligned broadcasting and reports failure when it cannot
be constructed.  An input extent is accepted at an aligned position when it
equals the target extent or is 1. -/
def broadcastableTo (inShape target : List Nat) : Bool :=
  inShape.length ≤ target.length &&
    (List.range inShape.length).all (fun j =>
      let a := dimOf inShape (inShape.length - 1 - j)
      let b := dimOf target (target.length - 1 - j)
      a == b || a == 1)

/-- Product of a list of extents; mirrors the accumulation of
`collapsedResultShape[0]` (Linear.cpp lines 584-588), which multiplies all
broadcasted batch extents together. -/
def listProd (l : List Nat) : Nat := l.foldl (· * ·) 1

/-- The batched (fifth) case of `ConvertAtenMatmulOp::matchAndRewrite`
(Linear.cpp lines 457-670), reached when both ranks are `> 1` and not both
2. -/
def matmulBatchedCase (inp : MatmulInput) : LowerResult MatmulEmitted :=
  let lhsRank := inp.lhsShape.length
  let rhsRank := inp.rhsShape.length
  let maxRank := max lhsRank rhsRank
  let batchRank := maxRank - 2
  if batchRank = 0 then .failure (some "expected batch dimensions")
  else
    let bbs := broadcastedBatchShape inp.lhsShape inp.rhsShape
    let lhsDim0 := dimOf inp.lhsShape (lhsRank - 2)
    let lhsDim1 := dimOf inp.lhsShape (lhsRank - 1)
    let rhsDim0 := dimOf inp.rhsShape (rhsRank - 2)
    let rhsDim1 := dimOf inp.rhsShape (rhsRank - 1)
    let a := checkDimEqual lhsDim1 rhsDim0
    if broadcastableTo inp.lhsShape (bbs ++ [lhsDim0, lhsDim1]) = false then
      .failure (some "unable to perform broadcast operation")
    else if broadcastableTo inp.rhsShape (bbs ++ [rhsDim0, rhsDim1]) = false then
      .failure (some "unable to perform broadcast operation")
    else if maxRank = 3 then
      .success
        { assertions := [a]
          primitive :=
            if inp.lhsZp.isSome then .quantizedBatchMatmul else .batchMatmul
          accShape := [dimOf bbs 0, lhsDim0, rhsDim1]
          reassoc := none
          expandedTo := none }
    else
      let batchDims := inp.resultStatic.dropLast.dropLast
      if batchDims.count kUnknownSize ≤ 1 then
        .success
          { assertions := [a]
            primitive :=
              if inp.lhsZp.isSome then .quantizedBatchMatmul else .batchMatmul
            accShape := [listProd bbs, lhsDim0, rhsDim1]
            reassoc := some [List.range batchRank, [batchRank], [batchRank + 1]]
            expandedTo := some inp.resultStatic }
      else
        .success
          { assertions := [a]
            primitive := .genericContraction
            accShape := bbs ++ [lhsDim0, rhsDim1]
            reassoc := none
            expandedTo := none }

/-- Shallow embedding of `ConvertAtenMatmulOp::matchAndRewrite`.  The cases
appear in source order: linalg-compatibility, mixed quantization, element
type mismatch, the quantized 1-D promotion path, then the rank-dispatch
(dot / vecmat / matvec / matmul / batched), and a bare `failure()` for
every remaining rank combination. -/
def convertAtenMatmulOp (inp : MatmulInput) : LowerResult MatmulEmitted :=
  let lhsRank := inp.lhsShape.length
  let rhsRank := inp.rhsShape.length
  if inp.linalgCompatible = false then .failure none
  else if inp.lhsZp.isSome ≠ inp.rhsZp.isSome then
    .failure (some "unsupported: aten.matmul with mixed quantization")
  else if inp.lhsZp.isNone ∧ inp.lhsDtype ≠ inp.rhsDtype then
    .failure (some "unsupported: aten.matmul with different input element types")
  else if inp.lhsZp.isSome ∧
      ((lhsRank = 1 ∧ rhsRank ≤ 2) ∨ (lhsRank ≤ 2 ∧ rhsRank = 1)) then
    -- quantized vec-vec / vec-mat / mat-vec: unsqueeze to matrices, use
    -- quantized_matmul, collapse the unit dimensions back out.
    let lhs2 := if lhsRank = 1 ∧ rhsRank ≤ 2 then [1, dimOf inp.lhsShape 0]
                else inp.lhsShape
    let rhs2 := if lhsRank ≤ 2 ∧ rhsRank = 1 then [dimOf inp.rhsShape 0, 1]
                else inp.rhsShape
    .success
      { assertions := [checkDimEqual (dimOf lhs2 1) (dimOf rhs2 0)]
        primitive := .quantizedMatmul
        accShape := [dimOf lhs2 0, dimOf rhs2 1]
        reassoc := some (if inp.resultStatic.length = 0 then [] else [[0, 1]])
        expandedTo := none }
  else if lhsRank = 1 ∧ rhsRank = 1 then
    .success
      { assertions := [checkDimEqual (dimOf inp.lhsShape 0) (dimOf inp.rhsShape 0)]
        primitive := .dot
        accShape := []
        reassoc := none
        expandedTo := none }
  else if lhsRank = 1 ∧ rhsRank = 2 then
    .success
      { assertions := [checkDimEqual (dimOf inp.lhsShape 0) (dimOf inp.rhsShape 0)]
        primitive := .vecmat
        accShape := [dimOf inp.rhsShape 1]
        reassoc := none
        expandedTo := none }
  else if lhsRank = 2 ∧ rhsRank = 1 then
    .success
      { assertions := [checkDimEqual (dimOf inp.lhsShape 1) (dimOf inp.rhsShape 0)]
        primitive := .matvec
        accShape := [dimOf inp.lhsShape 0]
        reassoc := none
        expandedTo := none }
  else if lhsRank = 2 ∧ rhsRank = 2 then
    .success
      { assertions := [checkDimEqual (dimOf inp.lhsShape 1) (dimOf inp.rhsShape 0)]
        primitive := if inp.lhsZp.isSome then .quantizedMatmul else .matmul
        accShape := [dimOf inp.lhsShape 0, dimOf inp.rhsShape 1]
        reassoc := none
        expandedTo := none }
  else if 1 < lhsRank ∧ 1 < rhsRank then
    matmulBatchedCase inp
  else
    .failure none

/-! ## ConvertAtenConvolutionOp (Linear.cpp lines 744-1374) -/

/-- One `aten.convolution` operator instance.  Static shapes are given in
torch-compatible form (`-1` = dynamic); `inputDims`/`weightDims` are the
runtime extents used for the group-divisibility assertions.  `Option`
fields whose value the pattern must match as a compile-time constant are
`none` when the corresponding `matchPattern`/`getListConstructElements`
call fails. -/
structure ConvInput where
  inputStatic : List Int
  weightStatic : List Int
  inputDims : List Nat
  weightDims : List Nat
  inputZp : Option Int
  weightZp : Option Int
  inputUnsigned : Bool
  weightUnsigned : Bool
  inputDty : BuiltinType
  weightDty : BuiltinType
  resultDty : BuiltinType
  bias : Option (Nat × BuiltinType)
  transposedConst : Option Bool
  paddingList : Option (List Int)
  outputPaddingList : Option (List Int)
  strideConst : Option (List Int)
  dilationConst : Option (List Int)
  groupsConst : Option Int
  deriving DecidableEq, Repr

/-- Replacement graph description for `aten.convolution`.  `padFill` is the
scalar used to fill the padded input: on the quantized path the input
zero-point *after* the unsigned-to-signed domain shift of `signShift`
(Linear.cpp lines 888-891 rebind `inputZp` before `Value pad = inputZp;`
at line 900), and 0 otherwise; `weightReassoc` is the collapse of the
weight's leading axes on the depthwise path; `inPerms` is the
NCHW-to-NHWC-style layout permutation applied on the quantized paths. -/
structure ConvEmitted where
  assertions : List Assertion
  padFill : Int
  transposedPath : Bool
  primitive : Primitive
  weightReassoc : Option (List (List Nat))
  inPerms : Option (List Nat)
  deriving DecidableEq, Repr

/-- True iff a bias tensor is present whose element type is not `i32`
(the condition of the quantized-bias check at Linear.cpp lines 797-803). -/
def biasNotI32 (bias : Option (Nat × BuiltinType)) : Bool :=
  match bias with
  | some (_, dty) => decide (dty ≠ .int 32)
  | none => false

/-- The input zero-point as it stands after the `signShift` call of
Linear.cpp lines 888-891: when the input element type is an integer type,
`signShift(rewriter, loc, input, inputZp, inputUnsigned, width)` rebinds
the zero-point (a no-op unless `inputUnsigned`); otherwise it is left
untouched.  A `none` zero-point stays `none` (`inputUnsigned` can only be
true when a zero-point was extracted, and `signShift` of a signed type
never touches its arguments). -/
def shiftedInputZp (dty : BuiltinType) (isUnsigned : Bool)
    (zp : Option Int) : Option Int :=
  match dty, zp with
  | .int width, some z => some (signShift isUnsigned width [] z).zp
  | _, zp => zp

/-- True iff a bias tensor is present whose rank is not 1 (the condition
of the bias-rank check at Linear.cpp lines 1041-1043). -/
def biasRankNot1 (bias : Option (Nat × BuiltinType)) : Bool :=
  match bias with
  | some (r, _) => decide (r ≠ 1)
  | none => false

/-- Swap the first two entries of a list: the effect of the weight
transpose on the weight's static shape in the transposed-convolution branch
(the spatial flip leaves extents unchanged). -/
def swap01 {α : Type} : List α → List α
  | a :: b :: rest => b :: a :: rest
  | l => l

/-- The channel-grouping dispatch tail of
`ConvertAtenConvolutionOp::matchAndRewrite` (Linear.cpp lines 1086-1371):
ungrouped direct convolution, ungrouped quantized (layout-permuted)
convolution, the depthwise special case (`Cin = Cout = groups`), and the
general grouped 2-D convolution, tried in that order.  Split out of the
main embedding so each can be reasoned about separately. -/
def convDispatch (numGroups : Int) (numSpatialDims : Nat)
    (inputZp : Option Int) (inputStatic weightStaticEff : List Int)
    (assertions : List Assertion) (padFill : Int) (transposed : Bool) :
    LowerResult ConvEmitted :=
  if numGroups = 1 ∧ inputZp.isNone then
    if numSpatialDims = 1 then
      .success ⟨assertions, padFill, transposed, .conv1d, none, none⟩
    else if numSpatialDims = 2 then
      .success ⟨assertions, padFill, transposed, .conv2d, none, none⟩
    else if numSpatialDims = 3 then
      .success ⟨assertions, padFill, transposed, .conv3d, none, none⟩
    else
      .failure (some "unimplemented: only 1D, 2D, and 3D convolution supported")
  else if numGroups = 1 ∧ inputZp.isSome then
    let inPerms := [0] ++ (List.range numSpatialDims).map (· + 2) ++ [1]
    if numSpatialDims = 2 then
      .success ⟨assertions, padFill, transposed, .qconv2d, none, some inPerms⟩
    else if numSpatialDims = 3 then
      .success ⟨assertions, padFill, transposed, .qconv3d, none, some inPerms⟩
    else
      .failure (some "unimplemented: only 1D, 2D, and 3D convolution supported")
  else if inputStatic.getD 1 0 = numGroups ∧
      weightStaticEff.getD 0 0 = numGroups ∧
      weightStaticEff.getD 1 0 = 1 then
    -- special depthwise case: Cin = Cout = groups
    let collapse := some ([[0, 1]]
      ++ (List.range numSpatialDims).map (fun i => [i + 2]))
    if inputZp.isNone then
      if numSpatialDims = 1 then
        .success ⟨assertions, padFill, transposed, .depthwise1d, collapse, none⟩
      else if numSpatialDims = 2 then
        .success ⟨assertions, padFill, transposed, .depthwise2d, collapse, none⟩
      else
        .failure (some "unimplemented: only 1D and 2D depthwise convolution supported for special case of group convolution")
    else
      if numSpatialDims ≠ 2 then
        .failure (some "unimplemented: only 2D depthwise quantized convolution supported for special case of group convolution")
      else
        .success ⟨assertions, padFill, transposed, .qdepthwise2d, collapse,
          some [0, 2, 3, 1]⟩
  else if numSpatialDims ≠ 2 then
    .failure (some "unimplemented: only 2D grouped convolution supported")
  else if inputZp.isNone then
    .success ⟨assertions, padFill, transposed, .groupedConv2d, none, none⟩
  else
    .success ⟨assertions, padFill, transposed, .qgroupedConv2d, none, none⟩

/-- Shallow embedding of `ConvertAtenConvolutionOp::matchAndRewrite`.
Checks appear in source order; the value-level padding/output-extent
arithmetic is not needed by any claim and is not recorded beyond `padFill`.
The element types in the modelled universe are exactly floats and
integers, so the `non-fp not-int` emitError branch is unrepresentable. -/
def convertAtenConvolutionOp (inp : ConvInput) : LowerResult ConvEmitted :=
  if inp.inputZp.isSome ≠ inp.weightZp.isSome then
    .failure (some "lhs and rhs of convolution must either be both int or fp")
  else if inp.inputZp.isSome ∧ biasNotI32 inp.bias = true then
    .failure (some "quantized result ty should be i32 accumulator")
  else if inp.transposedConst.isNone then
    .failure (some "unimplemented: only constant transposed supported")
  else
    let transposed := inp.transposedConst.getD false
    let inRank := inp.inputStatic.length
    let numSpatialDims := inRank - 2
    if numSpatialDims < 1 ∨ numSpatialDims > 3 then
      .failure (some "unimplemented: only 1d-3d convolution currently supported")
    else if inp.paddingList.isNone then
      .failure (some "only support padding from a list construct")
    else if inp.outputPaddingList.isNone then
      .failure (some "only support output_padding from a list construct")
    else if inp.strideConst.isNone then
      .failure (some "only support constant int strides")
    else if inp.dilationConst.isNone then
      .failure (some "only support constant int dilations")
    else if inp.groupsConst.isNone then
      .failure (some "only constant group size supported.")
    else
      let numGroups := inp.groupsConst.getD 0
      let assertions :=
        [⟨decide ((dimOf inp.inputDims 1 : Int) % numGroups = 0),
          "invalid: groups must divide input channel size evenly."⟩,
         ⟨decide ((dimOf inp.weightDims 0 : Int) % numGroups = 0),
          "invalid: groups must divide weight batch size evenly."⟩]
      -- Linear.cpp 888-896: signShift rebinds the zero-points (and shifts
      -- the operand elements, which no claim consults) before the pad
      -- value is taken from the input zero-point at lines 899-900.  The
      -- shift preserves the presence of a zero-point, so the dispatch
      -- below tests presence on the original `inp.inputZp`.
      let padFill :=
        (shiftedInputZp inp.inputDty inp.inputUnsigned inp.inputZp).getD 0
      let weightStaticEff :=
        if transposed then swap01 inp.weightStatic else inp.weightStatic
      if biasRankNot1 inp.bias then .failure (some "expect bias to be rank 1")
      else
        convDispatch numGroups numSpatialDims inp.inputZp inp.inputStatic
          weightStaticEff assertions padFill transposed

/-! ## ConvertAten_TrilinearOp (Linear.cpp lines 1376-1578)

The claim under test fixes the configuration: three 1-D inputs of equal
extent `n`, `expand1 = expand2 = expand3 = []`, `sumdim = [0]`,
`unroll_dim = 0`.  For that configuration `totalDims = 1`, no operand is
unsqueezed, `sumDims12 = sumDims23 = []` (dimension 0 is the unroll
dimension and is excluded from both partitions), `outputShape = [n]`,
`unrollSize = n`, and `slicemul1 = slicemul2 = slicemul3 = 1`.  The
accumulator `output` is a `tensor.EmptyOp` of shape `[n]` — its contents
are unspecified, so the embedding takes them as a parameter `empty0`.
Since `sumDimFlags[unrollDim]` holds, the second unrolled loop runs: for
each `k < n` it narrows each input to the length-1 slice `[i[k]]` at the
unroll dimension, multiplies the three slices elementwise, and rebinds
`output := aten.add(output, mulResult, alpha=1)` — an add that broadcasts
the `[1]`-shaped product over the whole `[n]`-shaped accumulator.  After
the loop, every summed dimension is squeezed: `aten.squeeze.dim(output, 0)`
removes dimension 0 only when its extent is 1. -/

/-- The length-1 product slice of iteration `k`: `i1[k] * i2[k] * i3[k]`,
from the two `AtenMulTensorOp`s on the narrowed slices. -/
def trilinearSliceProd (i1 i2 i3 : List Int) (k : Nat) : Int :=
  i1.getD k 0 * (i2.getD k 0) * (i3.getD k 0)

/-- The unrolled accumulation loop of the `sumDimFlags[unrollDim]` branch
(Linear.cpp lines 1528-1562), in the 1-D configuration: each iteration
broadcast-adds the scalar slice product to every accumulator entry. -/
def trilinearUnrollSum (i1 i2 i3 empty0 : List Int) (n : Nat) : List Int :=
  (List.range n).foldl
    (fun out k => out.map (fun x => x + trilinearSliceProd i1 i2 i3 k)) empty0

/-- A value of the replaced operator: either still a rank-1 tensor or a
scalar (rank 0). -/
inductive TrilinearValue where
  | scalar (x : Int)
  | vector (xs : List Int)
  deriving DecidableEq, Repr

/-- `aten.squeeze.dim` at dimension 0 of a rank-1 tensor: the dimension is
removed only when its extent is 1; otherwise the tensor is unchanged. -/
def squeezeDim0 (xs : List Int) : TrilinearValue :=
  if xs.length = 1 then .scalar (xs.getD 0 0) else .vector xs

/-- Shallow embedding of the program `ConvertAten_TrilinearOp` emits for
the 1-D configuration described above, evaluated on element values.
`empty0` is the (unspecified) initial contents of the `tensor.EmptyOp`
accumulator, of length `i1.length`. -/
def trilinearLowered1D (i1 i2 i3 empty0 : List Int) : TrilinearValue :=
  squeezeDim0 (trilinearUnrollSum i1 i2 i3 empty0 i1.length)

/-- Modelled from the spec: the reference semantics §8 prescribes for this
configuration — the scalar `sum(i1[k] * i2[k] * i3[k] for k in range(n))`. -/
def trilinearReference (i1 i2 i3 : List Int) : TrilinearValue :=
  .scalar (((List.range i1.length).map (trilinearSliceProd i1 i2 i3)).sum)

/-! ## Theorems -/

/-- The `numBits`-wide bit pattern of `minSI = -(2 ^ (numBits - 1))` is
`2 ^ (numBits - 1)`. -/
theorem minSIBits_eq (w : Nat) (hw : 1 ≤ w) :
    ((-(2 ^ (w - 1) : Int)) % (2 ^ w : Int)).toNat = 2 ^ (w - 1) := by
  have h2 : (2 : Int) ^ w = 2 * 2 ^ (w - 1) := by
    conv_lhs => rw [show w = (w - 1) + 1 by omega]
    rw [pow_succ]; ring
  have hM : (0 : Int) < 2 ^ (w - 1) := by positivity
  have hmod : (-(2 ^ (w - 1) : Int)) % (2 ^ w : Int) = 2 ^ (w - 1) := by
    rw [h2]
    have hsub : (-(2 ^ (w - 1) : Int)) = 2 ^ (w - 1) + 2 * 2 ^ (w - 1) * (-1) := by
      ring
    rw [hsub, Int.add_mul_emod_self_left,
      Int.emod_eq_of_lt hM.le (by linarith)]
  rw [hmod]
  have hcast : ((2 : Int) ^ (w - 1)) = ((2 ^ (w - 1) : Nat) : Int) := by
    push_cast; ring
  rw [hcast, Int.toNat_natCast]

/-- Signed reinterpretation of the wrapped elementwise add: for every
representable `w`-bit value the shifted bit pattern reads (as a signed
`w`-bit value) as `v - 2 ^ (w - 1)`. -/
theorem toSigned_shift_elem (w v : Nat) (hw : 1 ≤ w) (hv : v < 2 ^ w) :
    toSigned w ((v + 2 ^ (w - 1)) % 2 ^ w)
      = (v : Int) - ((2 ^ (w - 1) : Nat) : Int) := by
  have h2 : 2 ^ w = 2 * 2 ^ (w - 1) := by
    conv_lhs => rw [show w = (w - 1) + 1 by omega]
    rw [pow_succ]; ring
  have hm0 : 0 < 2 ^ (w - 1) := Nat.pos_pow_of_pos _ (by omega)
  rcases lt_or_ge v (2 ^ (w - 1)) with hvm | hvm
  · have hmod : (v + 2 ^ (w - 1)) % 2 ^ w = v + 2 ^ (w - 1) :=
      Nat.mod_eq_of_lt (by omega)
    rw [hmod, toSigned, if_neg (by omega)]
    have hw2 : ((2 : Int) ^ w) = ((2 ^ w : Nat) : Int) := by push_cast; ring
    rw [hw2]
    omega
  · have hmod : (v + 2 ^ (w - 1)) % 2 ^ w = v - 2 ^ (w - 1) := by
      rw [Nat.mod_eq_sub_mod (by omega), show v + 2 ^ (w - 1) - 2 ^ w
        = v - 2 ^ (w - 1) by omega, Nat.mod_eq_of_lt (by omega)]
    rw [hmod, toSigned, if_pos (by omega)]
    omega

/-- The i32 zero-point add does not wrap when the inputs are in range. -/
theorem addI32_eq_of_bounds (a b : Int) (h1 : -(2 ^ 31) ≤ a + b)
    (h2 : a + b < 2 ^ 31) : addI32 a b = a + b := by
  unfold addI32 toSigned
  norm_num at h1 h2 ⊢
  split_ifs <;> omega

/-- C4: `signShift` is a no-op when `isUnsignedType` is false; otherwise it
adds the constant `-2^(numBits-1)` to the zero-point and (as a wrapped
`numBits`-wide add) to every operand element, and for every representable
`numBits`-bit value the quantity `value - zeroPoint` is preserved exactly
(the shifted element being read back as a signed `numBits`-bit value). -/
theorem signShift_preserves_value_sub_zp
    (numBits : Nat) (arg : List Nat) (zp : Int)
    (hn : 1 ≤ numBits) (hw : numBits ≤ 31)
    (hzp0 : 0 ≤ zp) (hzp1 : zp < ((2 ^ numBits : Nat) : Int)) :
    signShift false numBits arg zp = ⟨arg, zp⟩ ∧
    (signShift true numBits arg zp).zp = zp - ((2 ^ (numBits - 1) : Nat) : Int) ∧
    (signShift true numBits arg zp).arg
        = arg.map (fun v => (v + 2 ^ (numBits - 1)) % 2 ^ numBits) ∧
    ∀ v ∈ arg, v < 2 ^ numBits →
      toSigned numBits ((v + 2 ^ (numBits - 1)) % 2 ^ numBits)
          - (signShift true numBits arg zp).zp
        = (v : Int) - zp := by
  have hple : (2 : Nat) ^ numBits ≤ 2147483648 := by
    calc (2 : Nat) ^ numBits ≤ 2 ^ 31 := Nat.pow_le_pow_right (by omega) hw
      _ = 2147483648 := by norm_num
  have hple2 : (2 : Nat) ^ (numBits - 1) ≤ 1073741824 := by
    calc (2 : Nat) ^ (numBits - 1) ≤ 2 ^ 30 :=
        Nat.pow_le_pow_right (by omega) (by omega)
      _ = 1073741824 := by norm_num
  have e31 : ((2 : Int) ^ 31) = 2147483648 := by norm_num
  have hd0 : (0 : Int) ≤ ((2 ^ (numBits - 1) : Nat) : Int) := by positivity
  have hzp : (signShift true numBits arg zp).zp
      = zp - ((2 ^ (numBits - 1) : Nat) : Int) := by
    show (addI32 zp (-(2 ^ (numBits - 1) : Int))) = _
    have hcast : (-(2 ^ (numBits - 1) : Int))
        = -((2 ^ (numBits - 1) : Nat) : Int) := by push_cast; ring
    rw [hcast, addI32_eq_of_bounds]
    · ring
    · rw [e31]; omega
    · rw [e31]; omega
  refine ⟨by simp [signShift], hzp, ?_, ?_⟩
  · simp only [signShift, Bool.true_eq_false, if_neg, reduceIte]
    rw [minSIBits_eq numBits hn]
  · intro v _ hv
    rw [hzp, toSigned_shift_elem numBits v hn hv]
    ring

/-- C4 witness: a concrete instantiation at `numBits = 8`, `zp = 5`,
elements `[0, 127, 128, 255]`. -/
theorem signShift_preserves_value_sub_zp_witness :
    (signShift true 8 [0, 127, 128, 255] 5).zp = 5 - ((2 ^ 7 : Nat) : Int) ∧
    toSigned 8 ((255 + 2 ^ 7) % 2 ^ 8) - (signShift true 8 [0, 127, 128, 255] 5).zp
      = (255 : Int) - 5 := by
  have h := signShift_preserves_value_sub_zp 8 [0, 127, 128, 255] 5
    (by norm_num) (by norm_num) (by norm_num) (by norm_num)
  exact ⟨h.2.1, h.2.2.2 255 (by norm_num) (by norm_num)⟩

/-- C1: for `aten.mm` with both operands of rank 2, matching element types
and matching quantization presence, a contracting-dimension mismatch never
fails the conversion: lowering succeeds, and unless the context assumes
strict symbolic shapes it inserts a single runtime assertion with the
message "mismatching contracting dimension for torch.aten.mm" that traps
exactly when `lhs` dim 1 differs from `rhs` dim 0; under strict symbolic
shapes no assertion is emitted. -/
theorem mm_contracting_dim_assertion (inp : MmInput)
    (hcompat : inp.linalgCompatible = true)
    (hl : inp.lhsShape.length = 2) (hr : inp.rhsShape.length = 2)
    (hdty : inp.lhsDtype = inp.rhsDtype)
    (hq : inp.lhsZp.isSome = inp.rhsZp.isSome) :
    ∃ out, convertAtenMmOp inp = .success out ∧
      (inp.strictSymbolicShapes = true → out.assertions = []) ∧
      (inp.strictSymbolicShapes = false →
        ∃ a, out.assertions = [a] ∧
          a.msg = "mismatching contracting dimension for torch.aten.mm" ∧
          (a.cond = false ↔ dimOf inp.lhsShape 1 ≠ dimOf inp.rhsShape 0)) := by
  simp only [convertAtenMmOp, hcompat, hl, hr, hdty, hq]
  norm_num
  intro hs
  simp only [hs, Bool.false_eq_true, if_false]
  exact ⟨_, rfl, rfl, by simp [decide_eq_false_iff_not]⟩

/-- C1 witness: the claim's own example shapes `[2, 3]` and `[4, 5]`:
lowering succeeds and the emitted assertion traps (its condition is
false). -/
theorem mm_contracting_dim_assertion_witness :
    ∃ out, convertAtenMmOp
        { lhsShape := [2, 3], rhsShape := [4, 5], lhsDtype := .float32,
          rhsDtype := .float32, lhsZp := none, rhsZp := none,
          linalgCompatible := true, strictSymbolicShapes := false }
      = .success out ∧
      (false = true → out.assertions = []) ∧
      (false = false →
        ∃ a, out.assertions = [a] ∧
          a.msg = "mismatching contracting dimension for torch.aten.mm" ∧
          (a.cond = false ↔ dimOf [2, 3] 1 ≠ dimOf [4, 5] 0)) :=
  mm_contracting_dim_assertion _ rfl rfl rfl rfl rfl

/-- C3: for `aten.mm`, `aten.matmul` and `aten.convolution`, mixed
quantization (exactly one operand carrying a zero-point) never produces a
replacement graph: the conversion always fails, and once the earlier
checks pass it fails with the dedicated mixed-quantization message (for
convolution the mixed-quantization check is the very first one). -/
theorem mixed_quantization_always_fails :
    (∀ inp : MmInput, inp.lhsZp.isSome ≠ inp.rhsZp.isSome →
      (convertAtenMmOp inp).isFailure = true ∧
      (inp.linalgCompatible = true → inp.lhsShape.length = 2 →
        inp.rhsShape.length = 2 →
        convertAtenMmOp inp
          = .failure (some "unsupported: aten.mm with mixed quantization"))) ∧
    (∀ inp : MatmulInput, inp.lhsZp.isSome ≠ inp.rhsZp.isSome →
      (convertAtenMatmulOp inp).isFailure = true ∧
      (inp.linalgCompatible = true →
        convertAtenMatmulOp inp
          = .failure (some "unsupported: aten.matmul with mixed quantization"))) ∧
    (∀ inp : ConvInput, inp.inputZp.isSome ≠ inp.weightZp.isSome →
      convertAtenConvolutionOp inp
        = .failure (some "lhs and rhs of convolution must either be both int or fp")) := by
  refine ⟨fun inp h => ?_, fun inp h => ?_, fun inp h => ?_⟩
  · constructor
    · unfold convertAtenMmOp
      split_ifs <;> simp_all [LowerResult.isFailure]
    · intro hc hl hr
      simp [convertAtenMmOp, hc, hl, hr, h]
  · constructor
    · unfold convertAtenMatmulOp
      split_ifs <;> simp_all [LowerResult.isFailure]
    · intro hc
      simp [convertAtenMatmulOp, hc, h]
  · simp [convertAtenConvolutionOp, h]

/-- C3 witness: concrete mixed-quantization instances of all three
operators are rejected. -/
theorem mixed_quantization_always_fails_witness :
    ((convertAtenMmOp
        { lhsShape := [2, 3], rhsShape := [3, 5], lhsDtype := .int8,
          rhsDtype := .int8, lhsZp := some 0, rhsZp := none,
          linalgCompatible := true, strictSymbolicShapes := false }).isFailure
      = true) ∧
    ((convertAtenMatmulOp
        { lhsShape := [2, 3], rhsShape := [3, 5], resultStatic := [2, 5],
          lhsDtype := .int8, rhsDtype := .int8, lhsZp := none,
          rhsZp := some 0, linalgCompatible := true }).isFailure = true) ∧
    (convertAtenConvolutionOp
        { inputStatic := [1, 2, 5, 5], weightStatic := [2, 1, 3, 3],
          inputDims := [1, 2, 5, 5], weightDims := [2, 1, 3, 3],
          inputZp := some 0, weightZp := none, inputUnsigned := false,
          weightUnsigned := false, inputDty := .int 8, weightDty := .int 8,
          resultDty := .int 32, bias := none, transposedConst := some false,
          paddingList := some [0, 0], outputPaddingList := some [0, 0],
          strideConst := some [1, 1], dilationConst := some [1, 1],
          groupsConst := some 2 }
      = .failure (some "lhs and rhs of convolution must either be both int or fp")) :=
  ⟨(mixed_quantization_always_fails.1 _ (by decide)).1,
   (mixed_quantization_always_fails.2.1 _ (by decide)).1,
   mixed_quantization_always_fails.2.2 _ (by decide)⟩

/-- A quantized rank-1 x rank-1 `aten.matmul` instance (both operands
produced by `aten._make_per_tensor_quantized_tensor`). -/
def matmulQuantVecIn : MatmulInput :=
  { lhsShape := [3], rhsShape := [3], resultStatic := [], lhsDtype := .int8,
    rhsDtype := .int8, lhsZp := some 0, rhsZp := some 0,
    linalgCompatible := true }

/-- C2 counterexample: for a quantized rank-1 x rank-1 `aten.matmul` the
lowering succeeds but does not emit the dot-product contraction the
dispatch table prescribes — the quantized 1-D promotion path emits
`linalg.quantized_matmul` on unsqueezed operands instead. -/
theorem matmul_rank_dispatch_counterexample :
    (convertAtenMatmulOp matmulQuantVecIn).isFailure = false ∧
    (convertAtenMatmulOp matmulQuantVecIn).emitted?.map (fun e => e.primitive)
      = some Primitive.quantizedMatmul ∧
    Primitive.quantizedMatmul ≠ Primitive.dot := by decide

/-- C2 amended: for `aten.matmul` operands without quantization
zero-points (and matching element types), the rank dispatch selects the
prescribed primitive with the prescribed result rank: 1x1 emits a dot
product with a rank-0 accumulator, 1x2 a vector-matrix contraction with a
rank-1 accumulator, 2x1 a matrix-vector contraction with a rank-1
accumulator, and 2x2 a plain matrix-matrix contraction with a rank-2
accumulator. -/
theorem matmul_rank_dispatch (inp : MatmulInput)
    (hcompat : inp.linalgCompatible = true)
    (hzl : inp.lhsZp = none) (hzr : inp.rhsZp = none)
    (hdty : inp.lhsDtype = inp.rhsDtype) :
    (inp.lhsShape.length = 1 → inp.rhsShape.length = 1 →
      ∃ out, convertAtenMatmulOp inp = .success out ∧
        out.primitive = .dot ∧ out.accShape.length = 0) ∧
    (inp.lhsShape.length = 1 → inp.rhsShape.length = 2 →
      ∃ out, convertAtenMatmulOp inp = .success out ∧
        out.primitive = .vecmat ∧ out.accShape.length = 1) ∧
    (inp.lhsShape.length = 2 → inp.rhsShape.length = 1 →
      ∃ out, convertAtenMatmulOp inp = .success out ∧
        out.primitive = .matvec ∧ out.accShape.length = 1) ∧
    (inp.lhsShape.length = 2 → inp.rhsShape.length = 2 →
      ∃ out, convertAtenMatmulOp inp = .success out ∧
        out.primitive = .matmul ∧ out.accShape.length = 2) := by
  refine ⟨fun h1 h2 => ?_, fun h1 h2 => ?_, fun h1 h2 => ?_, fun h1 h2 => ?_⟩ <;>
    · simp only [convertAtenMatmulOp, hcompat, hzl, hzr, hdty, h1, h2]
      norm_num

/-- C2 witness: a concrete unquantized rank-1 x rank-1 instance emits the
dot-product primitive with a rank-0 accumulator. -/
theorem matmul_rank_dispatch_witness :
    ∃ out, convertAtenMatmulOp
        { lhsShape := [3], rhsShape := [3], resultStatic := [],
          lhsDtype := .float32, rhsDtype := .float32, lhsZp := none,
          rhsZp := none, linalgCompatible := true }
      = .success out ∧ out.primitive = .dot ∧ out.accShape.length = 0 :=
  (matmul_rank_dispatch _ rfl rfl rfl rfl).1 rfl rfl

/-- An unquantized `aten.matmul` with ranks (1, 3), a combination not in
the dispatch table. -/
def matmulRank13In : MatmulInput :=
  { lhsShape := [3], rhsShape := [2, 3, 4], resultStatic := [2, 4],
    lhsDtype := .float32, rhsDtype := .float32, lhsZp := none, rhsZp := none,
    linalgCompatible := true }

/-- C8 counterexample: a rank-1 x rank-3 `aten.matmul` (not in the
dispatch table) falls through to the final bare `return failure()` — the
failure carries no reason at all, contradicting the claimed descriptive
notify-match-failure outcome. -/
theorem matmul_uncovered_rank_counterexample :
    convertAtenMatmulOp matmulRank13In = .failure none := by decide

/-- C8 amended: every operand rank combination outside the dispatch table
(a rank-0 operand, or a rank-1 operand against rank 3 or higher), for
operands that pass the earlier element-type and quantization-presence
checks without zero-points, makes the lowering fail and leave the operator
unmodified — but through the trailing bare `failure()`, which carries no
reason. -/
theorem matmul_uncovered_rank_fails (inp : MatmulInput)
    (hcompat : inp.linalgCompatible = true)
    (hzl : inp.lhsZp = none) (hzr : inp.rhsZp = none)
    (hdty : inp.lhsDtype = inp.rhsDtype)
    (huncov : ¬ ((inp.lhsShape.length = 1 ∧ inp.rhsShape.length = 1) ∨
        (inp.lhsShape.length = 1 ∧ inp.rhsShape.length = 2) ∨
        (inp.lhsShape.length = 2 ∧ inp.rhsShape.length = 1) ∨
        (inp.lhsShape.length = 2 ∧ inp.rhsShape.length = 2) ∨
        (1 < inp.lhsShape.length ∧ 1 < inp.rhsShape.length))) :
    convertAtenMatmulOp inp = .failure none := by
  push_neg at huncov
  obtain ⟨h11, h12, h21, h22, hbb⟩ := huncov
  simp only [convertAtenMatmulOp, hcompat, hzl, hzr, hdty]
  norm_num
  split_ifs with c1 c2 c3 c4 c5
  · exact absurd c1.2 (h11 c1.1)
  · exact absurd c2.2 (h12 c2.1)
  · exact absurd c3.2 (h21 c3.1)
  · exact absurd c4.2 (h22 c4.1)
  · exact absurd (hbb c5.1) (by omega)
  · rfl

/-- C8 witness: the amended statement instantiated at the concrete
rank-(1, 3) input. -/
theorem matmul_uncovered_rank_fails_witness :
    convertAtenMatmulOp
        { lhsShape := [5], rhsShape := [2, 5, 4], resultStatic := [2, 4],
          lhsDtype := .float32, rhsDtype := .float32, lhsZp := none,
          rhsZp := none, linalgCompatible := true }
      = .failure none :=
  matmul_uncovered_rank_fails _ rfl rfl rfl rfl (by simp)

/-- C6: for a batched `aten.matmul` whose result has batch rank greater
than 1 (operand ranks both above 1 and maximum rank above 3), any
successful lowering obeys the collapsing policy: when at most one batch
dimension of the static result shape is dynamic, the batch dimensions are
collapsed through the three-group reassociation, the contraction is a
rank-3 batched matmul, and the result is expanded back to the full result
shape; when more than one is dynamic, a generic indexed contraction over
all batch plus reduction dimensions is emitted with no collapse. -/
theorem matmul_batch_collapse_policy (inp : MatmulInput) (out : MatmulEmitted)
    (hl : 1 < inp.lhsShape.length) (hr : 1 < inp.rhsShape.length)
    (hm : 3 < max inp.lhsShape.length inp.rhsShape.length)
    (hs : convertAtenMatmulOp inp = .success out) :
    (inp.resultStatic.dropLast.dropLast.count kUnknownSize ≤ 1 →
      out.primitive = (if inp.lhsZp.isSome then Primitive.quantizedBatchMatmul
        else Primitive.batchMatmul) ∧
      out.reassoc = some
        [List.range (max inp.lhsShape.length inp.rhsShape.length - 2),
         [max inp.lhsShape.length inp.rhsShape.length - 2],
         [max inp.lhsShape.length inp.rhsShape.length - 2 + 1]] ∧
      out.accShape.length = 3 ∧
      out.expandedTo = some inp.resultStatic) ∧
    (1 < inp.resultStatic.dropLast.dropLast.count kUnknownSize →
      out.primitive = .genericContraction ∧
      out.reassoc = none ∧
      out.accShape.length
        = (max inp.lhsShape.length inp.rhsShape.length - 2) + 2) := by
  have hm4 : 3 < inp.lhsShape.length ∨ 3 < inp.rhsShape.length :=
    lt_max_iff.mp hm
  have n3 : ¬(inp.lhsZp.isSome = true ∧
      ((inp.lhsShape.length = 1 ∧ inp.rhsShape.length ≤ 2) ∨
       (inp.lhsShape.length ≤ 2 ∧ inp.rhsShape.length = 1))) := by
    rintro ⟨-, h | h⟩ <;> omega
  have n11 : ¬(inp.lhsShape.length = 1 ∧ inp.rhsShape.length = 1) := by omega
  have n12 : ¬(inp.lhsShape.length = 1 ∧ inp.rhsShape.length = 2) := by omega
  have n21 : ¬(inp.lhsShape.length = 2 ∧ inp.rhsShape.length = 1) := by omega
  have n22 : ¬(inp.lhsShape.length = 2 ∧ inp.rhsShape.length = 2) := by omega
  have hbb : 1 < inp.lhsShape.length ∧ 1 < inp.rhsShape.length := ⟨hl, hr⟩
  simp only [convertAtenMatmulOp] at hs
  rw [if_neg n3, if_neg n11, if_neg n12, if_neg n21, if_neg n22,
    if_pos hbb] at hs
  split_ifs at hs with d0 d1 d2
  simp only [matmulBatchedCase] at hs
  split_ifs at hs with b1 b2 b3 b4 b5 b6 b7
  · exact absurd b4 (by omega)
  · exact absurd b4 (by omega)
  · rw [LowerResult.success.injEq] at hs
    subst hs
    exact ⟨fun _ => ⟨by simp [b7], rfl, rfl, rfl⟩,
      fun hcount => absurd b6 (by omega)⟩
  · rw [LowerResult.success.injEq] at hs
    subst hs
    exact ⟨fun _ => ⟨by simp [b7], rfl, rfl, rfl⟩,
      fun hcount => absurd b6 (by omega)⟩
  · rw [LowerResult.success.injEq] at hs
    subst hs
    refine ⟨fun hcount => absurd hcount b6, fun _ => ⟨rfl, rfl, ?_⟩⟩
    simp [broadcastedBatchShape]

/-- The concrete batched-matmul instance used to witness C6. -/
def matmulBatch4In : MatmulInput :=
  { lhsShape := [2, 3, 4, 5], rhsShape := [2, 3, 5, 6],
    resultStatic := [2, 3, 4, 6], lhsDtype := .float32, rhsDtype := .float32,
    lhsZp := none, rhsZp := none, linalgCompatible := true }

/-- The replacement `matmulBatch4In` lowers to. -/
def matmulBatch4Out : MatmulEmitted :=
  { assertions := [⟨true, "mismatched dimensions for contraction"⟩],
    primitive := .batchMatmul, accShape := [6, 4, 6],
    reassoc := some [[0, 1], [2], [3]], expandedTo := some [2, 3, 4, 6] }

/-- C6 witness: the collapse policy instantiated at a concrete rank-4
batched matmul with a fully static result shape. -/
theorem matmul_batch_collapse_policy_witness :
    (matmulBatch4In.resultStatic.dropLast.dropLast.count kUnknownSize ≤ 1 →
      matmulBatch4Out.primitive = (if matmulBatch4In.lhsZp.isSome
        then Primitive.quantizedBatchMatmul else Primitive.batchMatmul) ∧
      matmulBatch4Out.reassoc = some
        [List.range (max matmulBatch4In.lhsShape.length matmulBatch4In.rhsShape.length - 2),
         [max matmulBatch4In.lhsShape.length matmulBatch4In.rhsShape.length - 2],
         [max matmulBatch4In.lhsShape.length matmulBatch4In.rhsShape.length - 2 + 1]] ∧
      matmulBatch4Out.accShape.length = 3 ∧
      matmulBatch4Out.expandedTo = some matmulBatch4In.resultStatic) ∧
    (1 < matmulBatch4In.resultStatic.dropLast.dropLast.count kUnknownSize →
      matmulBatch4Out.primitive = .genericContraction ∧
      matmulBatch4Out.reassoc = none ∧
      matmulBatch4Out.accShape.length
        = (max matmulBatch4In.lhsShape.length matmulBatch4In.rhsShape.length - 2) + 2) :=
  matmul_batch_collapse_policy matmulBatch4In matmulBatch4Out
    (by decide) (by decide) (by decide) (by decide)

/-- Right-aligned elementwise maximum of two extent lists given in
reversed (right-to-left) order: where both lists have an entry the maximum
is taken, and the remaining entries of the longer list are kept as they
are.  This is the spec's §4.3 description of batch-shape broadcasting. -/
def zipMaxPad : List Nat → List Nat → List Nat
  | [], bs => bs
  | as, [] => as
  | a :: as, b :: bs => max a b :: zipMaxPad as bs

theorem zipMaxPad_getD (a b : List Nat) (t : Nat) :
    (zipMaxPad a b).getD t 0 = max (a.getD t 0) (b.getD t 0) := by
  induction a generalizing b t with
  | nil => simp [zipMaxPad]
  | cons x xs ih =>
    cases b with
    | nil => simp [zipMaxPad]
    | cons y ys =>
      cases t with
      | zero => simp [zipMaxPad]
      | succ n => simpa [zipMaxPad] using ih ys n

theorem zipMaxPad_length (a b : List Nat) :
    (zipMaxPad a b).length = max a.length b.length := by
  induction a generalizing b with
  | nil => simp [zipMaxPad]
  | cons x xs ih =>
    cases b with
    | nil => simp [zipMaxPad]
    | cons y ys => simp [zipMaxPad, ih, Nat.succ_max_succ]

/-- The spec-§4.3 description of the broadcasted batch shape: drop the two
matrix dimensions of each operand, right-align the remaining batch
extents, and take the per-position maximum (the longer operand's extents
surviving unchanged). -/
def specBatchShape (lhsShape rhsShape : List Nat) : List Nat :=
  (zipMaxPad (lhsShape.take (lhsShape.length - 2)).reverse
    (rhsShape.take (rhsShape.length - 2)).reverse).reverse

/-- Reading the reversed `take` at position `t` picks the original entry
at position `k - 1 - t` (and 0 beyond the end). -/
theorem revTake_getD (l : List Nat) (k t : Nat) (hk : k ≤ l.length) :
    ((l.take k).reverse).getD t 0
      = if t < k then l.getD (k - 1 - t) 0 else 0 := by
  have hlen : (l.take k).length = k := by simp [Nat.min_eq_left hk]
  by_cases ht : t < k
  · rw [if_pos ht]
    have h1 : t < (l.take k).reverse.length := by simp [hlen]; omega
    rw [List.getD_eq_getElem _ 0 h1, List.getElem_reverse, List.getElem_take,
      List.getD_eq_getElem l 0 (by omega)]
    congr 1
    simp [hlen]
  · rw [if_neg ht, List.getD_eq_default _ 0 (by simp [hlen]; omega)]

/-- The batched-matmul broadcasted batch shape computed by the source's
index loop coincides with the spec's right-aligned per-position-maximum
description. -/
theorem broadcastedBatchShape_eq_spec (lhsShape rhsShape : List Nat)
    (hl : 2 ≤ lhsShape.length) (hr : 2 ≤ rhsShape.length) :
    broadcastedBatchShape lhsShape rhsShape
      = specBatchShape lhsShape rhsShape := by
  have hzl : ((lhsShape.take (lhsShape.length - 2)).reverse).length
      = lhsShape.length - 2 := by simp
  have hzr : ((rhsShape.take (rhsShape.length - 2)).reverse).length
      = rhsShape.length - 2 := by simp
  have hzlen : (zipMaxPad (lhsShape.take (lhsShape.length - 2)).reverse
      (rhsShape.take (rhsShape.length - 2)).reverse).length
      = max lhsShape.length rhsShape.length - 2 := by
    rw [zipMaxPad_length, hzl, hzr]; omega
  have hlenL : (broadcastedBatchShape lhsShape rhsShape).length
      = max lhsShape.length rhsShape.length - 2 := by
    simp [broadcastedBatchShape]
  have hlenR : (specBatchShape lhsShape rhsShape).length
      = max lhsShape.length rhsShape.length - 2 := by
    simp only [specBatchShape, List.length_reverse]
    exact hzlen
  apply List.ext_getElem (by rw [hlenL, hlenR])
  intro j hj1 hj2
  rw [hlenL] at hj1
  simp only [broadcastedBatchShape, List.getElem_map, List.getElem_range,
    specBatchShape, List.getElem_reverse, List.length_reverse, hzlen]
  rw [← List.getD_eq_getElem _ 0 (by omega)]
  rw [zipMaxPad_getD, revTake_getD _ _ _ (by omega), revTake_getD _ _ _ (by omega)]
  simp only [dimOf]
  by_cases hcond : max lhsShape.length rhsShape.length - 2 - j
      ≤ min lhsShape.length rhsShape.length - 2
  · rw [if_pos hcond, if_pos (by omega), if_pos (by omega)]
    have e1 : lhsShape.length - 2 - (max lhsShape.length rhsShape.length - 2 - j)
        = lhsShape.length - 2 - 1
          - (max lhsShape.length rhsShape.length - 2 - 1 - j) := by omega
    have e2 : rhsShape.length - 2 - (max lhsShape.length rhsShape.length - 2 - j)
        = rhsShape.length - 2 - 1
          - (max lhsShape.length rhsShape.length - 2 - 1 - j) := by omega
    rw [e1, e2]
  · rw [if_neg hcond]
    rcases Nat.lt_trichotomy lhsShape.length rhsShape.length with hc | hc | hc
    · rw [if_neg (by omega : ¬ lhsShape.length > rhsShape.length),
        if_neg (by omega : ¬ (max lhsShape.length rhsShape.length - 2 - 1 - j
          < lhsShape.length - 2)),
        if_pos (by omega : max lhsShape.length rhsShape.length - 2 - 1 - j
          < rhsShape.length - 2)]
      rw [Nat.zero_max]
      congr 1
      omega
    · exact absurd (by omega : max lhsShape.length rhsShape.length - 2 - j
        ≤ min lhsShape.length rhsShape.length - 2) hcond
    · rw [if_pos (by omega : lhsShape.length > rhsShape.length),
        if_pos (by omega : max lhsShape.length rhsShape.length - 2 - 1 - j
          < lhsShape.length - 2),
        if_neg (by omega : ¬ (max lhsShape.length rhsShape.length - 2 - 1 - j
          < rhsShape.length - 2))]
      rw [Nat.max_zero]
      congr 1
      omega

/-- C5 counterexample: taking the claim's example shapes literally —
operands `[2, 1, 4, 5]` and `[3, 4, 5, 6]` — the source's loop computes
the broadcasted batch shape `[3, 4]` (per-position maxima of `[2, 1]` and
`[3, 4]`), not the claimed `[2, 3]`. -/
theorem broadcast_batch_example_counterexample :
    broadcastedBatchShape [2, 1, 4, 5] [3, 4, 5, 6] = [3, 4] ∧
    broadcastedBatchShape [2, 1, 4, 5] [3, 4, 5, 6] ≠ [2, 3] := by decide

/-- The rank-4 x rank-3 batched matmul of the corrected example:
operand shapes `[2, 1, 4, 5]` and `[3, 5, 6]`. -/
def matmulBroadcastIn : MatmulInput :=
  { lhsShape := [2, 1, 4, 5], rhsShape := [3, 5, 6],
    resultStatic := [2, 3, 4, 6], lhsDtype := .float32, rhsDtype := .float32,
    lhsZp := none, rhsZp := none, linalgCompatible := true }

/-- An unbroadcastable batched pair: batch extents `[2, 3]` against
`[5, 3]` (2 vs 5 at the leading position, neither 1). -/
def matmulUnbroadcastIn : MatmulInput :=
  { lhsShape := [2, 3, 4, 5], rhsShape := [5, 3, 5, 6],
    resultStatic := [5, 3, 4, 6], lhsDtype := .float32, rhsDtype := .float32,
    lhsZp := none, rhsZp := none, linalgCompatible := true }

/-- C5 amended: the broadcasted batch shape is the right-aligned
per-position maximum of the operands' batch extents, the longer operand's
extent surviving where the shorter has no dimension; operand shapes
`[2, 1, 4, 5]` and `[3, 5, 6]` (the claim's example with the rhs read as
rank 3, as its stated results `[2, 3]` and `[2, 3, 4, 6]` require) produce
batch shape `[2, 3]` and result shape `[2, 3, 4, 6]`; and an
unbroadcastable pair fails lowering. -/
theorem broadcast_batch_shape_amended :
    (∀ lhsShape rhsShape : List Nat,
      2 ≤ lhsShape.length → 2 ≤ rhsShape.length →
      broadcastedBatchShape lhsShape rhsShape
        = specBatchShape lhsShape rhsShape) ∧
    broadcastedBatchShape [2, 1, 4, 5] [3, 5, 6] = [2, 3] ∧
    (∃ out, convertAtenMatmulOp matmulBroadcastIn = .success out ∧
      out.expandedTo = some [2, 3, 4, 6]) ∧
    (convertAtenMatmulOp matmulUnbroadcastIn
      = .failure (some "unable to perform broadcast operation")) := by
  refine ⟨broadcastedBatchShape_eq_spec, by decide, ?_, by decide⟩
  exact ⟨{ assertions := [⟨true, "mismatched dimensions for contraction"⟩],
           primitive := .batchMatmul, accShape := [6, 4, 6],
           reassoc := some [[0, 1], [2], [3]],
           expandedTo := some [2, 3, 4, 6] }, by decide, rfl⟩

/-- C5 witness: the general characterization instantiated at the
corrected example shapes. -/
theorem broadcast_batch_shape_amended_witness :
    broadcastedBatchShape [2, 1, 4, 5] [3, 5, 6]
      = specBatchShape [2, 1, 4, 5] [3, 5, 6] :=
  broadcast_batch_shape_amended.1 [2, 1, 4, 5] [3, 5, 6]
    (by norm_num) (by norm_num)

/-- A non-transposed 2-D convolution whose shapes satisfy the claimed
depthwise conditions with group count 1: input channels = groups = 1,
weight shape `[1, 1, 3, 3]`. -/
def convDepthwiseShapedG1 : ConvInput :=
  { inputStatic := [1, 1, 5, 5], weightStatic := [1, 1, 3, 3],
    inputDims := [1, 1, 5, 5], weightDims := [1, 1, 3, 3],
    inputZp := none, weightZp := none, inputUnsigned := false,
    weightUnsigned := false, inputDty := .float 32, weightDty := .float 32,
    resultDty := .float 32, bias := none, transposedConst := some false,
    paddingList := some [0, 0], outputPaddingList := some [0, 0],
    strideConst := some [1, 1], dilationConst := some [1, 1],
    groupsConst := some 1 }

/-- C7 counterexample: with group count 1 the depthwise conditions
(input channels = groups, weight out-channels = groups, weight in-channels
per group = 1) are satisfied, yet the lowering routes to the direct
`linalg.conv_2d_nchw_fchw` primitive — the `numGroups == 1` branch fires
before the depthwise special case is ever examined. -/
theorem depthwise_route_counterexample :
    (convertAtenConvolutionOp convDepthwiseShapedG1).emitted?.map
        (fun e => e.primitive) = some Primitive.conv2d ∧
    Primitive.conv2d ≠ Primitive.depthwise1d ∧
    Primitive.conv2d ≠ Primitive.depthwise2d ∧
    Primitive.conv2d ≠ Primitive.qdepthwise2d := by decide

/-- C7 amended: for a non-transposed `aten.convolution` with a group count
other than 1, input channels equal to the group count, weight
out-channel extent equal to the group count, and weight per-group
in-channel extent 1, every successful lowering collapses the weight's
first two axes and emits a depthwise primitive — 1-D or 2-D matching the
spatial rank when unquantized, the 2-D NHWC-layout quantized depthwise
primitive (with permutation `[0, 2, 3, 1]`) when quantized — and never the
general grouped primitives. -/
theorem depthwise_route_amended (inp : ConvInput) (out : ConvEmitted) (g : Int)
    (hg : inp.groupsConst = some g) (hg1 : g ≠ 1)
    (ht : inp.transposedConst = some false)
    (hin : inp.inputStatic.getD 1 0 = g)
    (hw0 : inp.weightStatic.getD 0 0 = g)
    (hw1 : inp.weightStatic.getD 1 0 = 1)
    (hs : convertAtenConvolutionOp inp = .success out) :
    out.weightReassoc = some ([[0, 1]]
      ++ (List.range (inp.inputStatic.length - 2)).map (fun i => [i + 2])) ∧
    (inp.inputZp.isNone →
      (inp.inputStatic.length - 2 = 1 → out.primitive = .depthwise1d) ∧
      (inp.inputStatic.length - 2 = 2 → out.primitive = .depthwise2d)) ∧
    (inp.inputZp.isSome →
      out.primitive = .qdepthwise2d ∧ out.inPerms = some [0, 2, 3, 1]) ∧
    out.primitive ≠ .groupedConv2d ∧ out.primitive ≠ .qgroupedConv2d := by
  have hng : ∀ b : Prop, ¬ ((g = 1) ∧ b) := fun b h => hg1 h.1
  simp only [convertAtenConvolutionOp, hg, ht, Option.isNone_some,
    Option.getD_some, Bool.false_eq_true, if_false] at hs
  split_ifs at hs with d1 d2 d3 d4 d5 d6 d7 d8
  simp only [convDispatch] at hs
  rw [if_neg (hng _), if_neg (hng _), if_pos ⟨hin, hw0, hw1⟩] at hs
  split_ifs at hs with e1 e2 e3 e4
  · rw [LowerResult.success.injEq] at hs
    subst hs
    refine ⟨rfl, fun _ => ⟨fun _ => rfl, fun h2 => absurd (e2.symm.trans h2)
      (by norm_num)⟩, fun hsome => ?_, fun h => Primitive.noConfusion h,
      fun h => Primitive.noConfusion h⟩
    rw [Option.isNone_iff_eq_none] at e1
    rw [e1] at hsome
    exact absurd hsome (by simp)
  · rw [LowerResult.success.injEq] at hs
    subst hs
    refine ⟨rfl, fun _ => ⟨fun h1 => absurd (e3.symm.trans h1) (by norm_num),
      fun _ => rfl⟩, fun hsome => ?_, fun h => Primitive.noConfusion h,
      fun h => Primitive.noConfusion h⟩
    rw [Option.isNone_iff_eq_none] at e1
    rw [e1] at hsome
    exact absurd hsome (by simp)
  · rw [LowerResult.success.injEq] at hs
    subst hs
    exact ⟨rfl, fun hnone => absurd hnone e1, fun _ => ⟨rfl, rfl⟩,
      fun h => Primitive.noConfusion h, fun h => Primitive.noConfusion h⟩

/-- The concrete depthwise convolution used to witness C7: groups = 4,
input `[1, 4, 5, 5]`, weight `[4, 1, 3, 3]`, unquantized, 2-D. -/
def convDepthwiseIn : ConvInput :=
  { inputStatic := [1, 4, 5, 5], weightStatic := [4, 1, 3, 3],
    inputDims := [1, 4, 5, 5], weightDims := [4, 1, 3, 3],
    inputZp := none, weightZp := none, inputUnsigned := false,
    weightUnsigned := false, inputDty := .float 32, weightDty := .float 32,
    resultDty := .float 32, bias := none, transposedConst := some false,
    paddingList := some [0, 0], outputPaddingList := some [0, 0],
    strideConst := some [1, 1], dilationConst := some [1, 1],
    groupsConst := some 4 }

/-- The replacement `convDepthwiseIn` lowers to. -/
def convDepthwiseOut : ConvEmitted :=
  { assertions := [⟨true, "invalid: groups must divide input channel size evenly."⟩,
                   ⟨true, "invalid: groups must divide weight batch size evenly."⟩],
    padFill := 0, transposedPath := false, primitive := .depthwise2d,
    weightReassoc := some [[0, 1], [2], [3]], inPerms := none }

/-- C7 witness: the amended depthwise-routing statement instantiated at
the concrete groups-4 depthwise convolution. -/
theorem depthwise_route_amended_witness :
    convDepthwiseOut.weightReassoc = some ([[0, 1]]
      ++ (List.range (convDepthwiseIn.inputStatic.length - 2)).map
        (fun i => [i + 2])) ∧
    (convDepthwiseIn.inputZp.isNone →
      (convDepthwiseIn.inputStatic.length - 2 = 1 →
        convDepthwiseOut.primitive = .depthwise1d) ∧
      (convDepthwiseIn.inputStatic.length - 2 = 2 →
        convDepthwiseOut.primitive = .depthwise2d)) ∧
    (convDepthwiseIn.inputZp.isSome →
      convDepthwiseOut.primitive = .qdepthwise2d ∧
      convDepthwiseOut.inPerms = some [0, 2, 3, 1]) ∧
    convDepthwiseOut.primitive ≠ .groupedConv2d ∧
    convDepthwiseOut.primitive ≠ .qgroupedConv2d :=
  depthwise_route_amended convDepthwiseIn convDepthwiseOut 4
    (by decide) (by decide) (by decide) (by decide) (by decide) (by decide)
    (by decide)

/-- C9: the program emitted for the trilinear claim's configuration (three
1-D inputs of extent 2, no expansions, sum-dimension set `{0}`, unroll
dimension 0) does not compute the claimed scalar sum.  With all inputs
`[1, 1]` the reference value is the scalar 2, but the emitted program
broadcast-accumulates into an uninitialized `tensor.empty` buffer — with
buffer contents `[5, 7]` it yields the rank-1 tensor `[7, 9]`, and even
with contents `[0, 0]` it yields `[2, 2]`, still rank 1, because the final
`aten.squeeze.dim` cannot remove the size-2 dimension. -/
theorem trilinear_unroll_sum_bug :
    trilinearLowered1D [1, 1] [1, 1] [1, 1] [5, 7] = .vector [7, 9] ∧
    trilinearLowered1D [1, 1] [1, 1] [1, 1] [0, 0] = .vector [2, 2] ∧
    trilinearReference [1, 1] [1, 1] [1, 1] = .scalar 2 ∧
    decide (trilinearLowered1D [1, 1] [1, 1] [1, 1] [0, 0]
      = trilinearReference [1, 1] [1, 1] [1, 1]) = false := by decide

/-- No failure of the grouping dispatch carries the quantized-bias
message: that message can only originate from the bias check. -/
theorem convDispatch_no_bias_msg (g : Int) (nsd : Nat) (zp : Option Int)
    (istat weff : List Int) (asserts : List Assertion) (pf : Int)
    (tr : Bool) :
    convDispatch g nsd zp istat weff asserts pf tr
      ≠ .failure (some "quantized result ty should be i32 accumulator") := by
  intro h
  simp only [convDispatch] at h
  split_ifs at h <;>
    first
      | exact (LowerResult.noConfusion h)
      | (rw [LowerResult.failure.injEq, Option.some.injEq] at h
         exact absurd h (by decide))

/-- Every successful grouping dispatch keeps the padding fill value it was
handed. -/
theorem convDispatch_padFill (g : Int) (nsd : Nat) (zp : Option Int)
    (istat weff : List Int) (asserts : List Assertion) (pf : Int)
    (tr : Bool) (out : ConvEmitted)
    (h : convDispatch g nsd zp istat weff asserts pf tr = .success out) :
    out.padFill = pf := by
  simp only [convDispatch] at h
  split_ifs at h <;>
    first
      | exact (LowerResult.noConfusion h)
      | (rw [LowerResult.success.injEq] at h
         subst h
         rfl)

set_option maxHeartbeats 1600000 in
/-- C10: on the quantized convolution path, a present bias whose element
type is not exactly `i32` makes the lowering fail with the dedicated
message; that failure message occurs in no other situation (so a `None`
bias is never subjected to the check); and every successful quantized
lowering fills the padded input with the input zero-point as it stands
after the unsigned-to-signed domain shift of `signShift` — which is the
original zero-point whenever the input is not unsigned. -/
theorem conv_quantized_bias_check :
    (∀ inp : ConvInput, inp.inputZp.isSome = true →
      inp.weightZp.isSome = true → biasNotI32 inp.bias = true →
      convertAtenConvolutionOp inp
        = .failure (some "quantized result ty should be i32 accumulator")) ∧
    (∀ inp : ConvInput,
      convertAtenConvolutionOp inp
          = .failure (some "quantized result ty should be i32 accumulator") →
      inp.inputZp.isSome = true ∧ biasNotI32 inp.bias = true) ∧
    (∀ (inp : ConvInput) (z : Int) (out : ConvEmitted),
      inp.inputZp = some z →
      convertAtenConvolutionOp inp = .success out →
      out.padFill
          = (shiftedInputZp inp.inputDty inp.inputUnsigned inp.inputZp).getD 0 ∧
        (inp.inputUnsigned = false → out.padFill = z)) := by
  refine ⟨fun inp h1 h2 h3 => ?_, fun inp h => ?_, fun inp z out h1 h2 => ?_⟩
  · simp [convertAtenConvolutionOp, h1, h2, h3]
  · simp only [convertAtenConvolutionOp] at h
    by_cases c1 : inp.inputZp.isSome ≠ inp.weightZp.isSome
    · rw [if_pos c1] at h
      exact absurd h (by decide)
    rw [if_neg c1] at h
    by_cases c2 : inp.inputZp.isSome = true ∧ biasNotI32 inp.bias = true
    · exact c2
    rw [if_neg c2] at h
    by_cases c3 : inp.transposedConst.isNone = true
    · rw [if_pos c3] at h
      exact absurd h (by decide)
    rw [if_neg c3] at h
    by_cases c4 : inp.inputStatic.length - 2 < 1 ∨ inp.inputStatic.length - 2 > 3
    · rw [if_pos c4] at h
      exact absurd h (by decide)
    rw [if_neg c4] at h
    by_cases c5 : inp.paddingList.isNone = true
    · rw [if_pos c5] at h
      exact absurd h (by decide)
    rw [if_neg c5] at h
    by_cases c6 : inp.outputPaddingList.isNone = true
    · rw [if_pos c6] at h
      exact absurd h (by decide)
    rw [if_neg c6] at h
    by_cases c7 : inp.strideConst.isNone = true
    · rw [if_pos c7] at h
      exact absurd h (by decide)
    rw [if_neg c7] at h
    by_cases c8 : inp.dilationConst.isNone = true
    · rw [if_pos c8] at h
      exact absurd h (by decide)
    rw [if_neg c8] at h
    by_cases c9 : inp.groupsConst.isNone = true
    · rw [if_pos c9] at h
      exact absurd h (by decide)
    rw [if_neg c9] at h
    by_cases c10 : biasRankNot1 inp.bias = true
    · rw [if_pos c10] at h
      exact absurd h (by decide)
    rw [if_neg c10] at h
    exact absurd h (convDispatch_no_bias_msg _ _ _ _ _ _ _ _)
  · simp only [convertAtenConvolutionOp] at h2
    by_cases c1 : inp.inputZp.isSome ≠ inp.weightZp.isSome
    · rw [if_pos c1] at h2
      exact (LowerResult.noConfusion h2)
    rw [if_neg c1] at h2
    by_cases c2 : inp.inputZp.isSome = true ∧ biasNotI32 inp.bias = true
    · rw [if_pos c2] at h2
      exact (LowerResult.noConfusion h2)
    rw [if_neg c2] at h2
    by_cases c3 : inp.transposedConst.isNone = true
    · rw [if_pos c3] at h2
      exact (LowerResult.noConfusion h2)
    rw [if_neg c3] at h2
    by_cases c4 : inp.inputStatic.length - 2 < 1 ∨ inp.inputStatic.length - 2 > 3
    · rw [if_pos c4] at h2
      exact (LowerResult.noConfusion h2)
    rw [if_neg c4] at h2
    by_cases c5 : inp.paddingList.isNone = true
    · rw [if_pos c5] at h2
      exact (LowerResult.noConfusion h2)
    rw [if_neg c5] at h2
    by_cases c6 : inp.outputPaddingList.isNone = true
    · rw [if_pos c6] at h2
      exact (LowerResult.noConfusion h2)
    rw [if_neg c6] at h2
    by_cases c7 : inp.strideConst.isNone = true
    · rw [if_pos c7] at h2
      exact (LowerResult.noConfusion h2)
    rw [if_neg c7] at h2
    by_cases c8 : inp.dilationConst.isNone = true
    · rw [if_pos c8] at h2
      exact (LowerResult.noConfusion h2)
    rw [if_neg c8] at h2
    by_cases c9 : inp.groupsConst.isNone = true
    · rw [if_pos c9] at h2
      exact (LowerResult.noConfusion h2)
    rw [if_neg c9] at h2
    by_cases c10 : biasRankNot1 inp.bias = true
    · rw [if_pos c10] at h2
      exact (LowerResult.noConfusion h2)
    rw [if_neg c10] at h2
    have hp := convDispatch_padFill _ _ _ _ _ _ _ _ _ h2
    refine ⟨hp, fun hU => ?_⟩
    rw [hp, h1, hU]
    cases inp.inputDty <;> rfl

/-- The concrete unsigned-quantized (quint8, zero-point 130) convolution
instance used to witness C10. -/
def convQuantIn : ConvInput :=
  { inputStatic := [1, 2, 5, 5], weightStatic := [2, 2, 3, 3],
    inputDims := [1, 2, 5, 5], weightDims := [2, 2, 3, 3],
    inputZp := some 130, weightZp := some 0, inputUnsigned := true,
    weightUnsigned := false, inputDty := .int 8, weightDty := .int 8,
    resultDty := .int 32, bias := none, transposedConst := some false,
    paddingList := some [0, 0], outputPaddingList := some [0, 0],
    strideConst := some [1, 1], dilationConst := some [1, 1],
    groupsConst := some 1 }

/-- The replacement `convQuantIn` lowers to: the padded input is filled
with the domain-shifted zero-point `130 - 128 = 2`. -/
def convQuantOut : ConvEmitted :=
  { assertions := [⟨true, "invalid: groups must divide input channel size evenly."⟩,
                   ⟨true, "invalid: groups must divide weight batch size evenly."⟩],
    padFill := 2, transposedPath := false, primitive := .qconv2d,
    weightReassoc := none, inPerms := some [0, 2, 3, 1] }

/-- C10 witness: a concrete successful unsigned-quantized convolution
fills its padded input with the shifted zero-point. -/
theorem conv_quantized_bias_check_witness :
    convQuantOut.padFill
        = (shiftedInputZp convQuantIn.inputDty convQuantIn.inputUnsigned
            convQuantIn.inputZp).getD 0 ∧
      (convQuantIn.inputUnsigned = false → convQuantOut.padFill = 130) :=
  conv_quantized_bias_check.2.2 convQuantIn 130 convQuantOut rfl (by decide)

end TorchToLinalg
